import Mathlib

/-!
# Waste-management core: shallow embedding and verification

This file embeds the report-lifecycle state machine and the points/rewards
ledger of the waste-management server (Mongoose models `Report`, `User`,
`Reward`/`Redemption` and the Express route handlers that mutate them) as
executable Lean definitions, and proves the testable properties stated in
the specification against that embedding.

Conventions:
* Mongo ObjectIds are modelled as `Nat`.
* JS `Number` fields holding counts/points are modelled as `Int` (they are
  mutated by ordinary arithmetic in the source, with no unsigned guarantee).
* Timestamps (`Date`) are modelled as `Int` milliseconds where they matter
  (reward validity windows); history timestamps are irrelevant to the
  verified properties and are omitted.
* Fallible route handlers become functions into `Except Err _`; an error
  response leaves every entity unchanged, which matches the handlers, all of
  which return before mutating anything when a precondition check fails.
-/

namespace WasteMgmt

/-- User roles (`userSchema.role` enum: citizen / admin / collector). -/
inductive Role where
  | citizen
  | admin
  | collector
deriving DecidableEq, Repr

/-- Report status enum (`reportSchema.status`). -/
inductive Status where
  | submitted
  | verified
  | assigned
  | in_progress
  | completed
  | rejected
deriving DecidableEq, Repr

/-- Typed error results; each constructor corresponds to one of the error
codes / thrown messages in the route handlers and model methods. -/
inductive Err where
  | validationFailed        -- express-validator rejection (400 Validation failed)
  | noImage                 -- POST /api/reports without an image file
  | reportNotFound          -- REPORT_NOT_FOUND
  | invalidStatus           -- INVALID_STATUS (status precondition failed)
  | invalidCollector        -- INVALID_COLLECTOR
  | accessDenied            -- ACCESS_DENIED / role middleware rejection
  | pointsAlreadyAwarded    -- POINTS_ALREADY_AWARDED
  | onlyCitizensEarnPoints  -- throw new Error 'Only citizens can earn points'
  | insufficientPoints      -- INSUFFICIENT_POINTS / deductPoints throw
  | rewardNotFound          -- REWARD_NOT_FOUND
  | rewardNotAvailable      -- REWARD_NOT_AVAILABLE
  | userNotFound            -- USER_NOT_FOUND (populate / lookup failure)
  | serverError             -- uncaught throw mapped to a 500 response
deriving DecidableEq, Repr

/-- The user fields touched by the verified operations
(`userSchema` in models/User.js). -/
structure User where
  role : Role
  points : Int
  totalReports : Int
  completedReports : Int
  completedTasks : Int
deriving DecidableEq, Repr

/-- `userSchema.methods.addPoints`: adds to the balance of a citizen and
throws `Only citizens can earn points` for any other role.  There is no
check on the sign or size of `points` in the source. -/
def User.addPoints (u : User) (points : Int) : Except Err User :=
  if u.role = Role.citizen then
    .ok { u with points := u.points + points }
  else
    .error .onlyCitizensEarnPoints

/-- `userSchema.methods.deductPoints`: subtracts from the balance when the
user is a citizen and the balance is at least the requested amount, and
throws `Insufficient points or invalid user role` otherwise. -/
def User.deductPoints (u : User) (points : Int) : Except Err User :=
  if u.role = Role.citizen ∧ u.points ≥ points then
    .ok { u with points := u.points - points }
  else
    .error .insufficientPoints

/-- The reward fields used by availability and redemption
(`rewardSchema` in models/Reward.js). -/
structure Reward where
  pointsCost : Int
  isActive : Bool
  totalQuantity : Int
  remainingQuantity : Int
  totalRedeemed : Int
  validFrom : Int
  validUntil : Int
  partnerName : Option String
deriving DecidableEq, Repr

/-- Redemption status enum (`redemptionSchema.status`). -/
inductive RedemptionStatus where
  | active
  | used
  | expired
  | cancelled
deriving DecidableEq, Repr

/-- A `Redemption` document as created by `rewardSchema.methods.redeem`. -/
structure Redemption where
  userId : Nat
  pointsUsed : Int
  generatedCode : String
  status : RedemptionStatus
  expiresAt : Int
deriving DecidableEq, Repr

/-- `rewardSchema.methods.generateCouponCode`: partner-name prefix (or
`WMS`), a timestamp fragment and a random fragment.  The fragments come
from `Date.now()` and `Math.random()` in the source and are passed in here
as oracle inputs. -/
def Reward.generateCouponCode (rw : Reward) (timestampPart randomPart : String) : String :=
  (match rw.partnerName with
   | some n => (n.take 3).toUpper
   | none => "WMS") ++ timestampPart ++ randomPart

/-- `rewardSchema.methods.isAvailable`: active, in stock, and `now` inside
the validity window. -/
def Reward.isAvailable (rw : Reward) (now : Int) : Bool :=
  rw.isActive && rw.remainingQuantity > 0 && rw.validFrom ≤ now && now ≤ rw.validUntil

/-- `rewardSchema.methods.redeem`: re-checks availability, decrements
`remainingQuantity`, bumps `totalRedeemed` and builds the `Redemption`
document (`status` takes its schema default `active`).  The coupon-code
oracle fragments are passed through. -/
def Reward.redeem (rw : Reward) (now : Int) (userId : Nat)
    (timestampPart randomPart : String) : Except Err (Reward × Redemption) :=
  if rw.isAvailable now then
    .ok ({ rw with
            remainingQuantity := rw.remainingQuantity - 1,
            totalRedeemed := rw.totalRedeemed + 1 },
         { userId := userId,
           pointsUsed := rw.pointsCost,
           generatedCode := rw.generateCouponCode timestampPart randomPart,
           status := .active,
           expiresAt := rw.validUntil })
  else
    .error .rewardNotAvailable

/-- `POST /api/users/rewards/:rewardId/redeem` (routes/users.js): the
`requireCitizen` middleware, reward lookup, `isAvailable` check, balance
check, `deductPoints`, then `Reward.redeem`.  Returns the updated user,
the updated reward and the new redemption. -/
def redeemRoute (now : Int) (u : User) (rwOpt : Option Reward) (userId : Nat)
    (timestampPart randomPart : String) : Except Err (User × Reward × Redemption) :=
  if u.role ≠ Role.citizen then
    .error .accessDenied
  else
    match rwOpt with
    | none => .error .rewardNotFound
    | some rw =>
      if ¬ rw.isAvailable now then
        .error .rewardNotAvailable
      else if u.points < rw.pointsCost then
        .error .insufficientPoints
      else do
        let u' ← u.deductPoints rw.pointsCost
        let (rw', red) ← rw.redeem now userId timestampPart randomPart
        .ok (u', rw', red)

/-! ## Report lifecycle (models/Report.js and routes/reports.js) -/

/-- One entry of `reportSchema.statusHistory` (the `changedAt` timestamp is
not used by any verified property and is omitted). -/
structure HistEntry where
  status : Status
  changedBy : Nat
  notes : String
deriving DecidableEq, Repr

/-- The report fields touched by the lifecycle routes. -/
structure Report where
  citizen : Nat
  title : String
  description : String
  address : String
  lat : Rat
  lng : Rat
  status : Status
  assignedTo : Option Nat
  pointsAwarded : Int
  completionNotes : String
  statusHistory : List HistEntry
deriving DecidableEq, Repr

/-- `reportSchema.methods.changeStatus`: sets the status and appends one
history entry; it performs no precondition check of its own. -/
def Report.changeStatus (r : Report) (newStatus : Status) (changedBy : Nat)
    (notes : String) : Report :=
  { r with
      status := newStatus,
      statusHistory := r.statusHistory ++ [⟨newStatus, changedBy, notes⟩] }

/-- The world the lifecycle routes act on, projected to a single report
slot: the routes mutate one `Report` document at a time, and operations on
other reports never touch this one. -/
structure LState where
  users : List (Nat × User)
  report : Option Report
deriving DecidableEq, Repr

/-- `User.findById`. -/
def LState.findUser (s : LState) (id : Nat) : Option User :=
  s.users.lookup id

/-- Write back one user document (`user.save()` / `findByIdAndUpdate`). -/
def LState.setUser (s : LState) (id : Nat) (u : User) : LState :=
  { s with users := s.users.map (fun p => if p.1 = id then (id, u) else p) }

/-- Input validation of `POST /api/reports` (`reportValidation`): title
5–100 chars, description 10–500 chars, non-empty address, lat in −90..90,
lng in −180..180. -/
def submitValidation (title description address : String) (lat lng : Rat) : Bool :=
  5 ≤ title.length && title.length ≤ 100 &&
  10 ≤ description.length && description.length ≤ 500 &&
  address.length > 0 &&
  -90 ≤ lat && lat ≤ 90 && -180 ≤ lng && lng ≤ 180

/-- `POST /api/reports`: `requireCitizen`, field validation, required image
file; creates the report with schema defaults (`status = submitted`,
`pointsAwarded = 0`, empty `statusHistory` — creation does not call
`changeStatus`) and increments the citizen's `totalReports`. -/
def submitReport (actor : Nat) (title description address : String)
    (lat lng : Rat) (hasImage : Bool) (s : LState) : Except Err LState :=
  match s.findUser actor with
  | none => .error .accessDenied
  | some u =>
    if u.role ≠ Role.citizen then .error .accessDenied
    else if ¬ submitValidation title description address lat lng then .error .validationFailed
    else if ¬ hasImage then .error .noImage
    else match s.report with
      | some _ => .error .serverError  -- single-slot projection: slot already holds the tracked report
      | none =>
        let r : Report :=
          { citizen := actor, title := title, description := description,
            address := address, lat := lat, lng := lng,
            status := .submitted, assignedTo := none, pointsAwarded := 0,
            completionNotes := "", statusHistory := [] }
        .ok { (s.setUser actor { u with totalReports := u.totalReports + 1 }) with
                report := some r }

/-- `PUT /api/reports/:id/verify`: `requireAdmin`, report must exist and be
`submitted`; `approve` picks `verified`, otherwise `rejected`, via
`changeStatus`. -/
def verifyReport (actor : Nat) (approve : Bool) (notes : String)
    (s : LState) : Except Err LState :=
  match s.findUser actor with
  | none => .error .accessDenied
  | some u =>
    if u.role ≠ Role.admin then .error .accessDenied
    else match s.report with
      | none => .error .reportNotFound
      | some r =>
        if r.status ≠ Status.submitted then .error .invalidStatus
        else
          let newStatus := if approve then Status.verified else Status.rejected
          .ok { s with report := some (r.changeStatus newStatus actor notes) }

/-- `PUT /api/reports/:id/assign`: `requireAdmin`, report must exist and be
`verified`, collector must exist with role `collector`; sets `assignedTo`
and transitions to `assigned`. -/
def assignReport (actor collectorId : Nat) (s : LState) : Except Err LState :=
  match s.findUser actor with
  | none => .error .accessDenied
  | some u =>
    if u.role ≠ Role.admin then .error .accessDenied
    else match s.report with
      | none => .error .reportNotFound
      | some r =>
        if r.status ≠ Status.verified then .error .invalidStatus
        else match s.findUser collectorId with
          | none => .error .invalidCollector
          | some c =>
            if c.role ≠ Role.collector then .error .invalidCollector
            else
              let r' := ({ r with assignedTo := some collectorId }).changeStatus
                          Status.assigned actor ""
              .ok { s with report := some r' }

/-- `PUT /api/reports/:id/start`: `requireCollector`, report must exist,
caller must equal `assignedTo` (a null `assignedTo` makes the handler throw
on `.toString()`, a 500), status must be `assigned`; transitions to
`in_progress`. -/
def startReport (actor : Nat) (s : LState) : Except Err LState :=
  match s.findUser actor with
  | none => .error .accessDenied
  | some u =>
    if u.role ≠ Role.collector then .error .accessDenied
    else match s.report with
      | none => .error .reportNotFound
      | some r =>
        match r.assignedTo with
        | none => .error .serverError
        | some c =>
          if c ≠ actor then .error .accessDenied
          else if r.status ≠ Status.assigned then .error .invalidStatus
          else .ok { s with report := some (r.changeStatus .in_progress actor "Started cleanup work") }

/-- `PUT /api/reports/:id/complete`: `requireCollector`, report must exist,
caller must equal `assignedTo`, status must be `in_progress`, an after-image
file is required; sets `completionNotes`, transitions to `completed` and
bumps the collector's `completedTasks`. -/
def completeReport (actor : Nat) (hasAfterImage : Bool) (notes : String)
    (s : LState) : Except Err LState :=
  match s.findUser actor with
  | none => .error .accessDenied
  | some u =>
    if u.role ≠ Role.collector then .error .accessDenied
    else match s.report with
      | none => .error .reportNotFound
      | some r =>
        match r.assignedTo with
        | none => .error .serverError
        | some c =>
          if c ≠ actor then .error .accessDenied
          else if r.status ≠ Status.in_progress then .error .invalidStatus
          else if ¬ hasAfterImage then .error .noImage
          else
            let r' := ({ r with completionNotes := notes }).changeStatus .completed actor
                        (if notes = "" then "Cleanup completed" else notes)
            .ok { (s.setUser actor { u with completedTasks := u.completedTasks + 1 }) with
                    report := some r' }

/-- `PUT /api/reports/:id/award-points`: `requireAdmin`; express-validator
`isInt min 1 max 1000` on `points` runs before the report is even loaded
(`pts = none` stands for a missing or non-integer body value); then report
lookup, `status = completed` check, `pointsAwarded > 0` check,
`citizen.addPoints`, and finally `pointsAwarded := points` plus the
citizen's `completedReports` increment. -/
def awardPoints (actor : Nat) (pts : Option Int) (s : LState) : Except Err LState :=
  match s.findUser actor with
  | none => .error .accessDenied
  | some u =>
    if u.role ≠ Role.admin then .error .accessDenied
    else match pts with
      | none => .error .validationFailed
      | some p =>
        if ¬ (1 ≤ p ∧ p ≤ 1000) then .error .validationFailed
        else match s.report with
          | none => .error .reportNotFound
          | some r =>
            if r.status ≠ Status.completed then .error .invalidStatus
            else if r.pointsAwarded > 0 then .error .pointsAlreadyAwarded
            else match s.findUser r.citizen with
              | none => .error .userNotFound  -- populate('citizen') yielded nothing
              | some cit => do
                let cit' ← cit.addPoints p
                let r' := { r with pointsAwarded := p }
                .ok { (s.setUser r.citizen
                        { cit' with completedReports := cit'.completedReports + 1 }) with
                        report := some r' }

/-- One lifecycle request, with all caller-supplied data. -/
inductive Op where
  | submit (actor : Nat) (title description address : String) (lat lng : Rat) (hasImage : Bool)
  | verify (actor : Nat) (approve : Bool) (notes : String)
  | assign (actor collectorId : Nat)
  | start (actor : Nat)
  | complete (actor : Nat) (hasAfterImage : Bool) (notes : String)
  | award (actor : Nat) (pts : Option Int)
deriving DecidableEq, Repr

/-- An error response leaves the state unchanged; a success replaces it. -/
def orKeep (s : LState) : Except Err LState → LState
  | .ok s' => s'
  | .error _ => s

/-- Run one request; a failed request returns its error response and leaves
the state unchanged. -/
def applyOp (s : LState) (op : Op) : LState :=
  match op with
  | .submit a t d addr la ln im => orKeep s (submitReport a t d addr la ln im s)
  | .verify a ap n => orKeep s (verifyReport a ap n s)
  | .assign a c => orKeep s (assignReport a c s)
  | .start a => orKeep s (startReport a s)
  | .complete a im n => orKeep s (completeReport a im n s)
  | .award a p => orKeep s (awardPoints a p s)

/-- Run a sequence of requests. -/
def runOps (s : LState) (ops : List Op) : LState :=
  ops.foldl applyOp s

/-! ## Geospatial helpers (models/Report.js statics) -/

/-- `Math.atan2` on real arguments (standard two-argument arctangent;
only the `0 < x` branch is exercised by the haversine formula, where both
arguments are square roots). -/
noncomputable def atan2 (y x : ℝ) : ℝ :=
  if 0 < x then Real.arctan (y / x)
  else if x < 0 ∧ 0 ≤ y then Real.arctan (y / x) + Real.pi
  else if x < 0 ∧ y < 0 then Real.arctan (y / x) - Real.pi
  else if x = 0 ∧ 0 < y then Real.pi / 2
  else if x = 0 ∧ y < 0 then -(Real.pi / 2)
  else 0

/-- The intermediate `a` of `reportSchema.statics.calculateDistance`:
`sin²(dLat/2) + cos(lat1·π/180)·cos(lat2·π/180)·sin²(dLng/2)` with
`dLat = (lat2−lat1)·π/180` and `dLng = (lng2−lng1)·π/180`. -/
noncomputable def haversineA (lat1 lng1 lat2 lng2 : ℝ) : ℝ :=
  Real.sin ((lat2 - lat1) * Real.pi / 180 / 2) *
      Real.sin ((lat2 - lat1) * Real.pi / 180 / 2) +
    Real.cos (lat1 * Real.pi / 180) * Real.cos (lat2 * Real.pi / 180) *
      Real.sin ((lng2 - lng1) * Real.pi / 180 / 2) *
      Real.sin ((lng2 - lng1) * Real.pi / 180 / 2)

/-- `reportSchema.statics.calculateDistance`: haversine great-circle
distance `R · c` with Earth radius `R = 6371` km and
`c = 2·atan2(√a, √(1−a))`. -/
noncomputable def calculateDistance (lat1 lng1 lat2 lng2 : ℝ) : ℝ :=
  6371 * (2 * atan2 (Real.sqrt (haversineA lat1 lng1 lat2 lng2))
                    (Real.sqrt (1 - haversineA lat1 lng1 lat2 lng2)))

/-- The selection condition of `reportSchema.statics.findNearby`: the Mongo
query keeps exactly the reports whose stored coordinates `(rlat, rlng)`
satisfy the two interval constraints built from `radiusKm / 111` (latitude)
and `radiusKm / (111 · cos(lat·π/180))` (longitude). -/
def memFindNearby (lat lng radiusKm rlat rlng : ℝ) : Prop :=
  (lat - radiusKm / 111 ≤ rlat ∧ rlat ≤ lat + radiusKm / 111) ∧
  (lng - radiusKm / (111 * Real.cos (lat * Real.pi / 180)) ≤ rlng ∧
   rlng ≤ lng + radiusKm / (111 * Real.cos (lat * Real.pi / 180)))

/-- Modelled from the amended claim's words: the axis-aligned bounding box
centred on the query point, half-width `radiusKm / 111` degrees of latitude
and `radiusKm / (111 · cos(lat·π/180))` degrees of longitude. -/
def inBoundingBox (lat lng radiusKm rlat rlng : ℝ) : Prop :=
  |rlat - lat| ≤ radiusKm / 111 ∧
  |rlng - lng| ≤ radiusKm / (111 * Real.cos (lat * Real.pi / 180))

/-! ## Report id generation (reportSchema pre-save hook) -/

/-- JS `String.prototype.padStart`: pads on the left up to length `n`;
strings already at least `n` long are returned unchanged. -/
def padStart (s : String) (n : Nat) (c : Char) : String :=
  if n ≤ s.length then s else String.mk (List.replicate (n - s.length) c) ++ s

/-- The id built by the pre-save hook: `` `WR${String(count + 1).padStart(6, '0')}` ``
where `count` is `countDocuments()` at save time. -/
def generateReportId (count : Nat) : String :=
  "WR" ++ padStart (Nat.repr (count + 1)) 6 '0'

/-- The pre-save hook itself: only a new document without a `reportId`
gets one generated. -/
def assignReportId (isNew : Bool) (existing : Option String) (count : Nat) : Option String :=
  if isNew && existing.isNone then some (generateReportId count) else existing

/-! ## Transition graph of the lifecycle -/

/-- The edges of `submitted → verified → assigned → in_progress → completed`
with `submitted → rejected` as the only alternate branch. -/
def validEdge : Status → Status → Bool
  | .submitted, .verified => true
  | .submitted, .rejected => true
  | .verified, .assigned => true
  | .assigned, .in_progress => true
  | .in_progress, .completed => true
  | _, _ => false

/-- `validChain prev l` holds when `l` walks the transition graph starting
from `prev`, one edge at a time. -/
def validChain : Status → List Status → Bool
  | _, [] => true
  | prev, x :: xs => validEdge prev x && validChain x xs

/-- The statuses recorded in a report's history, in order. -/
def historyStatuses (r : Report) : List Status :=
  r.statusHistory.map (·.status)

/-- The last element of a status list, or `prev` when it is empty. -/
def lastStatus : Status → List Status → Status
  | prev, [] => prev
  | _, x :: xs => lastStatus x xs

/-- Everything the lifecycle routes guarantee about a single report:
its recorded history walks the graph from `submitted`, its status field is
the last recorded status (or `submitted` before any transition), and
`pointsAwarded` is `0` or in the validated range `1..1000`. -/
def GoodReport (r : Report) : Prop :=
  validChain Status.submitted (historyStatuses r) = true ∧
  r.status = lastStatus Status.submitted (historyStatuses r) ∧
  (r.pointsAwarded = 0 ∨ (1 ≤ r.pointsAwarded ∧ r.pointsAwarded ≤ 1000))

/-- State invariant: the tracked report, when present, is good. -/
def Inv (s : LState) : Prop := ∀ r, s.report = some r → GoodReport r

/-! ## Ledger call sequences -/

/-- One ledger call: `addPoints`, `deductPoints`, or a redemption through
`POST /api/users/rewards/:rewardId/redeem` (the reward and code-oracle data
are the per-call arguments). -/
inductive LedgerOp where
  | add (amount : Int)
  | deduct (amount : Int)
  | redeemCall (now : Int) (rw : Reward) (userId : Nat) (timestampPart randomPart : String)
deriving DecidableEq, Repr

/-- `true` for every call except an `add` with a negative amount. -/
def addNonneg : LedgerOp → Bool
  | .add a => 0 ≤ a
  | _ => true

/-- A thrown error leaves the user document unchanged. -/
def userOrKeep (u : User) : Except Err User → User
  | .ok u' => u'
  | .error _ => u

/-- Run one ledger call against a user; a thrown error leaves the user
document unchanged. -/
def applyLedgerOp (u : User) (op : LedgerOp) : User :=
  match op with
  | .add a => userOrKeep u (u.addPoints a)
  | .deduct a => userOrKeep u (u.deductPoints a)
  | .redeemCall now rw uid t rnd =>
      match redeemRoute now u (some rw) uid t rnd with
      | .ok (u', _, _) => u'
      | .error _ => u

/-- Run a sequence of ledger calls. -/
def runLedger (u : User) (ops : List LedgerOp) : User :=
  ops.foldl applyLedgerOp u

/-! ## Redemption attempt sequences against one reward -/

/-- The caller-controlled data of one redemption attempt. -/
structure AttemptArgs where
  now : Int
  user : User
  userId : Nat
  timestampPart : String
  randomPart : String
deriving DecidableEq, Repr

/-- Run one redemption attempt against a reward and its redemption list;
a failed attempt changes nothing. -/
def redeemAttempt (st : Reward × List Redemption) (a : AttemptArgs) :
    Reward × List Redemption :=
  match redeemRoute a.now a.user (some st.1) a.userId a.timestampPart a.randomPart with
  | .ok (_, rw', red) => (rw', st.2 ++ [red])
  | .error _ => st

/-- Run a sequence of redemption attempts. -/
def runAttempts (st : Reward × List Redemption) (attempts : List AttemptArgs) :
    Reward × List Redemption :=
  attempts.foldl redeemAttempt st

/-! ## Concrete fixtures used by witnesses and scenario theorems -/

/-- A citizen with a non-zero starting balance. -/
def demoCitizen : User :=
  { role := .citizen, points := 7, totalReports := 3, completedReports := 1,
    completedTasks := 0 }

/-- An administrator. -/
def demoAdmin : User :=
  { role := .admin, points := 0, totalReports := 0, completedReports := 0,
    completedTasks := 0 }

/-- A collector. -/
def demoCollector : User :=
  { role := .collector, points := 0, totalReports := 0, completedReports := 0,
    completedTasks := 0 }

/-- World before the end-to-end scenario: citizen 1, admin 2, collector 3,
no report yet. -/
def demoStart : LState :=
  { users := [(1, demoCitizen), (2, demoAdmin), (3, demoCollector)], report := none }

/-- The end-to-end scenario of the specification: submit at
(40.7128, −74.0060) — written `mkRat 407128 10000` / `mkRat (-740060) 10000`
so that the kernel can evaluate the trace — → verify(approve) →
assign(collector 3) → start(3) → complete(3, afterImage, "done") →
awardPoints(50). -/
def demoTrace : List Op :=
  [ .submit 1 "Trash pile here" "Lots of trash on the corner" "New York City"
      (mkRat 407128 10000) (mkRat (-740060) 10000) true,
    .verify 2 true "",
    .assign 2 3,
    .start 3,
    .complete 3 true "done",
    .award 2 (some 50) ]

/-- A completed, not-yet-awarded report assigned to collector 3, as left by
the first five steps of the scenario. -/
def demoCompletedReport : Report :=
  { citizen := 1, title := "Trash pile here",
    description := "Lots of trash on the corner", address := "New York City",
    lat := mkRat 407128 10000, lng := mkRat (-740060) 10000,
    status := .completed, assignedTo := some 3, pointsAwarded := 0,
    completionNotes := "done",
    statusHistory :=
      [ ⟨.verified, 2, ""⟩, ⟨.assigned, 2, ""⟩,
        ⟨.in_progress, 3, "Started cleanup work"⟩, ⟨.completed, 3, "done"⟩ ] }

/-- World holding `demoCompletedReport`, ready for the award step. -/
def demoAwardState : LState :=
  { users := [(1, demoCitizen), (2, demoAdmin), (3, demoCollector)],
    report := some demoCompletedReport }

/-- The report after the award step of the scenario. -/
def demoAwardedReport : Report :=
  { demoCompletedReport with pointsAwarded := 50 }

/-- An in-stock, active reward. -/
def demoReward : Reward :=
  { pointsCost := 5, isActive := true, totalQuantity := 10,
    remainingQuantity := 10, totalRedeemed := 0, validFrom := 0,
    validUntil := 1000, partnerName := some "GreenMart" }

/-! ## Helper lemmas -/

theorem lastStatus_append (p : Status) (l : List Status) (x : Status) :
    lastStatus p (l ++ [x]) = x := by
  induction l generalizing p with
  | nil => rfl
  | cons a t ih => simpa [lastStatus] using ih a

theorem validChain_append (p : Status) (l : List Status) (x : Status) :
    validChain p (l ++ [x]) = (validChain p l && validEdge (lastStatus p l) x) := by
  induction l generalizing p with
  | nil => simp [validChain, lastStatus]
  | cons a t ih => simp [validChain, lastStatus, ih, Bool.and_assoc]

theorem historyStatuses_changeStatus (r : Report) (st : Status) (cb : Nat)
    (notes : String) :
    historyStatuses (r.changeStatus st cb notes) = historyStatuses r ++ [st] := by
  simp [historyStatuses, Report.changeStatus]

theorem goodReport_changeStatus {r : Report} (st : Status) (cb : Nat)
    (notes : String) (hg : GoodReport r) (hedge : validEdge r.status st = true) :
    GoodReport (r.changeStatus st cb notes) := by
  obtain ⟨hchain, hlast, hpa⟩ := hg
  refine ⟨?_, ?_, hpa⟩
  · rw [historyStatuses_changeStatus, validChain_append, hchain, ← hlast, hedge]
    rfl
  · rw [historyStatuses_changeStatus, lastStatus_append]
    rfl

theorem lookup_overwrite_self (l : List (Nat × User)) (id : Nat) (u v : User)
    (h : l.lookup id = some v) :
    (l.map (fun p => if p.1 = id then (id, u) else p)).lookup id = some u := by
  induction l with
  | nil => simp [List.lookup] at h
  | cons p t ih =>
    obtain ⟨k, w⟩ := p
    by_cases hp : k = id
    · subst hp
      simp only [List.map_cons, ite_true, if_true, eq_self_iff_true]
      simp [List.lookup]
    · have hbeq : (id == k) = false :=
        beq_eq_false_iff_ne.mpr (fun he => hp he.symm)
      simp only [List.lookup, hbeq] at h
      simp only [List.map_cons]
      rw [if_neg hp]
      simp only [List.lookup, hbeq]
      exact ih h

theorem lookup_overwrite_other (l : List (Nat × User)) (id other : Nat)
    (hne : other ≠ id) (u : User) :
    (l.map (fun p => if p.1 = id then (id, u) else p)).lookup other =
      l.lookup other := by
  induction l with
  | nil => simp
  | cons p t ih =>
    obtain ⟨k, w⟩ := p
    by_cases hp : k = id
    · subst hp
      have hbeq : (other == k) = false := beq_eq_false_iff_ne.mpr hne
      simp only [List.map_cons, ite_true, if_true, eq_self_iff_true]
      simp only [List.lookup, hbeq]
      exact ih
    · simp only [List.map_cons]
      rw [if_neg hp]
      simp only [List.lookup]
      cases hob : (other == k) with
      | true => rfl
      | false => exact ih

theorem findUser_setUser_self {s : LState} {id : Nat} {v : User}
    (h : s.findUser id = some v) (u : User) :
    (s.setUser id u).findUser id = some u :=
  lookup_overwrite_self s.users id u v h

theorem findUser_setUser_other {s : LState} {id other : Nat} (hne : other ≠ id)
    (u : User) : (s.setUser id u).findUser other = s.findUser other :=
  lookup_overwrite_other s.users id other hne u

/-! ## Inversion lemmas: what a successful route call implies -/

theorem submit_ok {a : Nat} {t d addr : String} {la ln : Rat} {im : Bool}
    {s s' : LState} (h : submitReport a t d addr la ln im s = .ok s') :
    ∃ u, s.findUser a = some u ∧ u.role = Role.citizen ∧
      submitValidation t d addr la ln = true ∧ im = true ∧ s.report = none ∧
      s' = { (s.setUser a { u with totalReports := u.totalReports + 1 }) with
               report := some { citizen := a, title := t, description := d,
                                address := addr, lat := la, lng := ln,
                                status := .submitted, assignedTo := none,
                                pointsAwarded := 0, completionNotes := "",
                                statusHistory := [] } } := by
  unfold submitReport at h
  split at h
  · exact Except.noConfusion h
  next u hu =>
    split at h
    · exact Except.noConfusion h
    next hrole =>
      split at h
      · exact Except.noConfusion h
      next hval =>
        split at h
        · exact Except.noConfusion h
        next him =>
          split at h
          · exact Except.noConfusion h
          next hrep =>
            refine ⟨u, hu, not_not.mp hrole, not_not.mp hval,
              not_not.mp him, hrep, ?_⟩
            cases h; rfl

theorem verify_ok {a : Nat} {ap : Bool} {n : String} {s s' : LState}
    (h : verifyReport a ap n s = .ok s') :
    ∃ u r, s.findUser a = some u ∧ u.role = Role.admin ∧ s.report = some r ∧
      r.status = Status.submitted ∧
      s' = { s with report := some (r.changeStatus
              (if ap then Status.verified else Status.rejected) a n) } := by
  unfold verifyReport at h
  split at h
  · exact Except.noConfusion h
  next u hu =>
    split at h
    · exact Except.noConfusion h
    next hrole =>
      split at h
      · exact Except.noConfusion h
      next r hr =>
        split at h
        · exact Except.noConfusion h
        next hst =>
          refine ⟨u, r, hu, not_not.mp hrole, hr, not_not.mp hst, ?_⟩
          cases h; rfl

theorem assign_ok {a cid : Nat} {s s' : LState}
    (h : assignReport a cid s = .ok s') :
    ∃ u r c, s.findUser a = some u ∧ u.role = Role.admin ∧ s.report = some r ∧
      r.status = Status.verified ∧ s.findUser cid = some c ∧
      c.role = Role.collector ∧
      s' = { s with report := some (({ r with assignedTo := some cid
                                     }).changeStatus Status.assigned a "") } := by
  unfold assignReport at h
  split at h
  · exact Except.noConfusion h
  next u hu =>
    split at h
    · exact Except.noConfusion h
    next hrole =>
      split at h
      · exact Except.noConfusion h
      next r hr =>
        split at h
        · exact Except.noConfusion h
        next hst =>
          split at h
          · exact Except.noConfusion h
          next c hc =>
            split at h
            · exact Except.noConfusion h
            next hcrole =>
              refine ⟨u, r, c, hu, not_not.mp hrole, hr, not_not.mp hst, hc,
                not_not.mp hcrole, ?_⟩
              cases h; rfl

theorem start_ok {a : Nat} {s s' : LState} (h : startReport a s = .ok s') :
    ∃ u r, s.findUser a = some u ∧ u.role = Role.collector ∧
      s.report = some r ∧ r.assignedTo = some a ∧ r.status = Status.assigned ∧
      s' = { s with report := some (r.changeStatus Status.in_progress a
                                      "Started cleanup work") } := by
  unfold startReport at h
  split at h
  · exact Except.noConfusion h
  next u hu =>
    split at h
    · exact Except.noConfusion h
    next hrole =>
      split at h
      · exact Except.noConfusion h
      next r hr =>
        split at h
        · exact Except.noConfusion h
        next c hass =>
          split at h
          · exact Except.noConfusion h
          next hca =>
            split at h
            · exact Except.noConfusion h
            next hst =>
              refine ⟨u, r, hu, not_not.mp hrole, hr, ?_, not_not.mp hst, ?_⟩
              · rw [hass, not_not.mp hca]
              · cases h; rfl

theorem complete_ok {a : Nat} {im : Bool} {n : String} {s s' : LState}
    (h : completeReport a im n s = .ok s') :
    ∃ u r, s.findUser a = some u ∧ u.role = Role.collector ∧
      s.report = some r ∧ r.assignedTo = some a ∧
      r.status = Status.in_progress ∧ im = true ∧
      s' = { (s.setUser a { u with completedTasks := u.completedTasks + 1 }) with
               report := some (({ r with completionNotes := n }).changeStatus
                 Status.completed a (if n = "" then "Cleanup completed" else n)) }
      := by
  unfold completeReport at h
  split at h
  · exact Except.noConfusion h
  next u hu =>
    split at h
    · exact Except.noConfusion h
    next hrole =>
      split at h
      · exact Except.noConfusion h
      next r hr =>
        split at h
        · exact Except.noConfusion h
        next c hass =>
          split at h
          · exact Except.noConfusion h
          next hca =>
            split at h
            · exact Except.noConfusion h
            next hst =>
              split at h
              · exact Except.noConfusion h
              next him =>
                refine ⟨u, r, hu, not_not.mp hrole, hr, ?_, not_not.mp hst,
                  not_not.mp him, ?_⟩
                · rw [hass, not_not.mp hca]
                · cases h; rfl

theorem award_ok {a : Nat} {pts : Option Int} {s s' : LState}
    (h : awardPoints a pts s = .ok s') :
    ∃ u p r cit, s.findUser a = some u ∧ u.role = Role.admin ∧
      pts = some p ∧ 1 ≤ p ∧ p ≤ 1000 ∧
      s.report = some r ∧ r.status = Status.completed ∧ r.pointsAwarded ≤ 0 ∧
      s.findUser r.citizen = some cit ∧ cit.role = Role.citizen ∧
      s' = { (s.setUser r.citizen
               { cit with points := cit.points + p,
                          completedReports := cit.completedReports + 1 }) with
               report := some { r with pointsAwarded := p } } := by
  unfold awardPoints at h
  split at h
  · exact Except.noConfusion h
  next u hu =>
    split at h
    · exact Except.noConfusion h
    next hrole =>
      split at h
      · exact Except.noConfusion h
      next p =>
        split at h
        · exact Except.noConfusion h
        next hp =>
          have hp' : 1 ≤ p ∧ p ≤ 1000 := not_not.mp hp
          split at h
          · exact Except.noConfusion h
          next r hr =>
            split at h
            · exact Except.noConfusion h
            next hst =>
              split at h
              · exact Except.noConfusion h
              next hpa =>
                split at h
                · exact Except.noConfusion h
                next cit hcit =>
                  rw [show (∀ x f, bind x f = Except.bind x f) from fun _ _ => rfl] at h
                  cases hadd : cit.addPoints p with
                  | error e => rw [hadd] at h; exact Except.noConfusion h
                  | ok cit' =>
                    rw [hadd] at h
                    simp only [Except.bind] at h
                    unfold User.addPoints at hadd
                    split at hadd
                    next hcr =>
                      cases hadd
                      refine ⟨u, p, r, cit, hu, not_not.mp hrole, rfl, hp'.1,
                        hp'.2, hr, not_not.mp hst, le_of_not_lt hpa, hcit, hcr, ?_⟩
                      cases h; rfl
                    · exact Except.noConfusion hadd

/-! ## Preservation of the lifecycle invariant -/

theorem applyOp_inv {s : LState} (op : Op) (hs : Inv s) : Inv (applyOp s op) := by
  cases op with
  | submit a t d addr la ln im =>
    show Inv (orKeep s (submitReport a t d addr la ln im s))
    cases hres : submitReport a t d addr la ln im s with
    | error e => exact hs
    | ok s1 =>
      obtain ⟨u, hu, hrole, hval, him, hrep, hs1⟩ := submit_ok hres
      subst hs1
      intro r hr
      obtain rfl := Option.some.inj hr
      exact ⟨rfl, rfl, Or.inl rfl⟩
  | verify a ap n =>
    show Inv (orKeep s (verifyReport a ap n s))
    cases hres : verifyReport a ap n s with
    | error e => exact hs
    | ok s1 =>
      obtain ⟨u, r0, hu, hrole, hr0, hst, hs1⟩ := verify_ok hres
      subst hs1
      intro r hr
      obtain rfl := Option.some.inj hr
      have hedge : validEdge r0.status (if ap then Status.verified else Status.rejected) = true := by
        rw [hst]; cases ap <;> rfl
      exact goodReport_changeStatus _ a n (hs r0 hr0) hedge
  | assign a cid =>
    show Inv (orKeep s (assignReport a cid s))
    cases hres : assignReport a cid s with
    | error e => exact hs
    | ok s1 =>
      obtain ⟨u, r0, c, hu, hrole, hr0, hst, hc, hcrole, hs1⟩ := assign_ok hres
      subst hs1
      intro r hr
      obtain rfl := Option.some.inj hr
      have hedge : validEdge ({ r0 with assignedTo := some cid } : Report).status
          Status.assigned = true := by
        show validEdge r0.status Status.assigned = true
        rw [hst]; rfl
      exact goodReport_changeStatus _ a "" (hs r0 hr0) hedge
  | start a =>
    show Inv (orKeep s (startReport a s))
    cases hres : startReport a s with
    | error e => exact hs
    | ok s1 =>
      obtain ⟨u, r0, hu, hrole, hr0, hass, hst, hs1⟩ := start_ok hres
      subst hs1
      intro r hr
      obtain rfl := Option.some.inj hr
      have hedge : validEdge r0.status Status.in_progress = true := by rw [hst]; rfl
      exact goodReport_changeStatus _ a "Started cleanup work" (hs r0 hr0) hedge
  | complete a im n =>
    show Inv (orKeep s (completeReport a im n s))
    cases hres : completeReport a im n s with
    | error e => exact hs
    | ok s1 =>
      obtain ⟨u, r0, hu, hrole, hr0, hass, hst, him, hs1⟩ := complete_ok hres
      subst hs1
      intro r hr
      obtain rfl := Option.some.inj hr
      have hedge : validEdge ({ r0 with completionNotes := n } : Report).status
          Status.completed = true := by
        show validEdge r0.status Status.completed = true
        rw [hst]; rfl
      exact goodReport_changeStatus _ a _ (hs r0 hr0) hedge
  | award a pts =>
    show Inv (orKeep s (awardPoints a pts s))
    cases hres : awardPoints a pts s with
    | error e => exact hs
    | ok s1 =>
      obtain ⟨u, p, r0, cit, hu, hrole, hpts, hp1, hp2, hr0, hst, hpa, hcit,
        hcr, hs1⟩ := award_ok hres
      subst hs1
      intro r hr
      obtain rfl := Option.some.inj hr
      obtain ⟨h1, h2, _⟩ := hs r0 hr0
      exact ⟨h1, h2, Or.inr ⟨hp1, hp2⟩⟩

theorem runOps_inv {s : LState} (ops : List Op) (hs : Inv s) :
    Inv (runOps s ops) := by
  induction ops generalizing s with
  | nil => exact hs
  | cons op rest ih => exact ih (applyOp_inv op hs)

theorem inv_start (users : List (Nat × User)) : Inv ⟨users, none⟩ :=
  fun _ hr => Option.noConfusion hr

/-- A report in a terminal state (`completed` or `rejected`) keeps its
status and history under every request. -/
theorem terminal_preserved {s : LState} {r : Report} (hr : s.report = some r)
    (hterm : r.status = Status.completed ∨ r.status = Status.rejected) (op : Op) :
    ∃ r', (applyOp s op).report = some r' ∧ r'.status = r.status ∧
      r'.statusHistory = r.statusHistory := by
  have contra : ∀ st : Status, r.status = st →
      st ≠ Status.completed → st ≠ Status.rejected → False := by
    intro st h hc hj
    cases hterm with
    | inl h' => exact hc (h ▸ h')
    | inr h' => exact hj (h ▸ h')
  cases op with
  | submit a t d addr la ln im =>
    show ∃ r', (orKeep s (submitReport a t d addr la ln im s)).report = some r' ∧ _
    cases hres : submitReport a t d addr la ln im s with
    | error e => exact ⟨r, hr, rfl, rfl⟩
    | ok s1 =>
      obtain ⟨u, hu, hrole, hval, him, hrep, hs1⟩ := submit_ok hres
      rw [hr] at hrep
      exact Option.noConfusion hrep
  | verify a ap n =>
    show ∃ r', (orKeep s (verifyReport a ap n s)).report = some r' ∧ _
    cases hres : verifyReport a ap n s with
    | error e => exact ⟨r, hr, rfl, rfl⟩
    | ok s1 =>
      obtain ⟨u, r0, hu, hrole, hr0, hst, hs1⟩ := verify_ok hres
      rw [hr] at hr0
      obtain rfl := Option.some.inj hr0
      exact (contra _ hst (by intro hh; cases hh) (by intro hh; cases hh)).elim
  | assign a cid =>
    show ∃ r', (orKeep s (assignReport a cid s)).report = some r' ∧ _
    cases hres : assignReport a cid s with
    | error e => exact ⟨r, hr, rfl, rfl⟩
    | ok s1 =>
      obtain ⟨u, r0, c, hu, hrole, hr0, hst, hc, hcrole, hs1⟩ := assign_ok hres
      rw [hr] at hr0
      obtain rfl := Option.some.inj hr0
      exact (contra _ hst (by intro hh; cases hh) (by intro hh; cases hh)).elim
  | start a =>
    show ∃ r', (orKeep s (startReport a s)).report = some r' ∧ _
    cases hres : startReport a s with
    | error e => exact ⟨r, hr, rfl, rfl⟩
    | ok s1 =>
      obtain ⟨u, r0, hu, hrole, hr0, hass, hst, hs1⟩ := start_ok hres
      rw [hr] at hr0
      obtain rfl := Option.some.inj hr0
      exact (contra _ hst (by intro hh; cases hh) (by intro hh; cases hh)).elim
  | complete a im n =>
    show ∃ r', (orKeep s (completeReport a im n s)).report = some r' ∧ _
    cases hres : completeReport a im n s with
    | error e => exact ⟨r, hr, rfl, rfl⟩
    | ok s1 =>
      obtain ⟨u, r0, hu, hrole, hr0, hass, hst, him, hs1⟩ := complete_ok hres
      rw [hr] at hr0
      obtain rfl := Option.some.inj hr0
      exact (contra _ hst (by intro hh; cases hh) (by intro hh; cases hh)).elim
  | award a pts =>
    show ∃ r', (orKeep s (awardPoints a pts s)).report = some r' ∧ _
    cases hres : awardPoints a pts s with
    | error e => exact ⟨r, hr, rfl, rfl⟩
    | ok s1 =>
      obtain ⟨u, p, r0, cit, hu, hrole, hpts, hp1, hp2, hr0, hst, hpa, hcit,
        hcr, hs1⟩ := award_ok hres
      rw [hr] at hr0
      obtain rfl := Option.some.inj hr0
      subst hs1
      exact ⟨{ r with pointsAwarded := p }, rfl, rfl, rfl⟩

/-- After a completed report has had its points awarded, every further
request fails and leaves the whole state untouched. -/
theorem frozen_applyOp {s : LState} {r : Report} (hr : s.report = some r)
    (hst : r.status = Status.completed) (hpa : 0 < r.pointsAwarded) (op : Op) :
    applyOp s op = s := by
  cases op with
  | submit a t d addr la ln im =>
    show orKeep s (submitReport a t d addr la ln im s) = s
    cases hres : submitReport a t d addr la ln im s with
    | error e => rfl
    | ok s1 =>
      obtain ⟨u, hu, hrole, hval, him, hrep, hs1⟩ := submit_ok hres
      rw [hr] at hrep
      exact Option.noConfusion hrep
  | verify a ap n =>
    show orKeep s (verifyReport a ap n s) = s
    cases hres : verifyReport a ap n s with
    | error e => rfl
    | ok s1 =>
      obtain ⟨u, r0, hu, hrole, hr0, hst0, hs1⟩ := verify_ok hres
      rw [hr] at hr0
      obtain rfl := Option.some.inj hr0
      rw [hst] at hst0
      exact Status.noConfusion hst0
  | assign a cid =>
    show orKeep s (assignReport a cid s) = s
    cases hres : assignReport a cid s with
    | error e => rfl
    | ok s1 =>
      obtain ⟨u, r0, c, hu, hrole, hr0, hst0, hc, hcrole, hs1⟩ := assign_ok hres
      rw [hr] at hr0
      obtain rfl := Option.some.inj hr0
      rw [hst] at hst0
      exact Status.noConfusion hst0
  | start a =>
    show orKeep s (startReport a s) = s
    cases hres : startReport a s with
    | error e => rfl
    | ok s1 =>
      obtain ⟨u, r0, hu, hrole, hr0, hass, hst0, hs1⟩ := start_ok hres
      rw [hr] at hr0
      obtain rfl := Option.some.inj hr0
      rw [hst] at hst0
      exact Status.noConfusion hst0
  | complete a im n =>
    show orKeep s (completeReport a im n s) = s
    cases hres : completeReport a im n s with
    | error e => rfl
    | ok s1 =>
      obtain ⟨u, r0, hu, hrole, hr0, hass, hst0, him, hs1⟩ := complete_ok hres
      rw [hr] at hr0
      obtain rfl := Option.some.inj hr0
      rw [hst] at hst0
      exact Status.noConfusion hst0
  | award a pts =>
    show orKeep s (awardPoints a pts s) = s
    cases hres : awardPoints a pts s with
    | error e => rfl
    | ok s1 =>
      obtain ⟨u, p, r0, cit, hu, hrole, hpts, hp1, hp2, hr0, hst0, hpa0, hcit,
        hcr, hs1⟩ := award_ok hres
      rw [hr] at hr0
      obtain rfl := Option.some.inj hr0
      exact absurd hpa (not_lt.mpr hpa0)

/-- Iterated version of `frozen_applyOp`. -/
theorem frozen_runOps {s : LState} {r : Report} (hr : s.report = some r)
    (hst : r.status = Status.completed) (hpa : 0 < r.pointsAwarded)
    (ops : List Op) : runOps s ops = s := by
  induction ops with
  | nil => rfl
  | cons op rest ih =>
    show List.foldl applyOp (applyOp s op) rest = s
    rw [frozen_applyOp hr hst hpa op]
    exact ih

/-! ## Forward computations of the award-points handler -/

theorem award_validation_err (s : LState) (a : Nat) (u : User) (pts : Option Int)
    (hu : s.findUser a = some u) (hrole : u.role = Role.admin)
    (hbad : pts = none ∨ ∃ p, pts = some p ∧ (p < 1 ∨ 1000 < p)) :
    awardPoints a pts s = .error Err.validationFailed := by
  unfold awardPoints
  rw [hu]
  try simp only []
  rw [if_neg (not_not_intro hrole)]
  rcases hbad with hnone | ⟨p, hp, hout⟩
  · subst hnone; rfl
  · subst hp
    try simp only []
    rw [if_pos]
    rintro ⟨h1, h2⟩
    rcases hout with hl | hg
    · exact absurd h1 (not_le.mpr hl)
    · exact absurd h2 (not_le.mpr hg)

theorem award_success {s : LState} {a : Nat} {u : User} {p : Int} {r : Report}
    {cit : User}
    (hu : s.findUser a = some u) (hrole : u.role = Role.admin)
    (hp1 : 1 ≤ p) (hp2 : p ≤ 1000)
    (hr : s.report = some r) (hst : r.status = Status.completed)
    (hpa : r.pointsAwarded = 0)
    (hcit : s.findUser r.citizen = some cit) (hcr : cit.role = Role.citizen) :
    awardPoints a (some p) s =
      .ok { (s.setUser r.citizen
              { cit with points := cit.points + p,
                         completedReports := cit.completedReports + 1 }) with
              report := some { r with pointsAwarded := p } } := by
  unfold awardPoints
  rw [hu]; try simp only []
  rw [if_neg (not_not_intro hrole)]
  try simp only []
  rw [if_neg (not_not_intro ⟨hp1, hp2⟩)]
  rw [hr]; try simp only []
  rw [if_neg (not_not_intro hst)]
  rw [if_neg (by rw [hpa]; exact lt_irrefl 0)]
  rw [hcit]; try simp only []
  unfold User.addPoints
  rw [if_pos hcr]
  rfl

theorem award_repeat_err {s : LState} {a : Nat} {u : User} {q : Int} {r : Report}
    (hu : s.findUser a = some u) (hrole : u.role = Role.admin)
    (hq1 : 1 ≤ q) (hq2 : q ≤ 1000)
    (hr : s.report = some r) (hst : r.status = Status.completed)
    (hpa : 0 < r.pointsAwarded) :
    awardPoints a (some q) s = .error Err.pointsAlreadyAwarded := by
  unfold awardPoints
  rw [hu]; try simp only []
  rw [if_neg (not_not_intro hrole)]
  try simp only []
  rw [if_neg (not_not_intro ⟨hq1, hq2⟩)]
  rw [hr]; try simp only []
  rw [if_neg (not_not_intro hst)]
  rw [if_pos hpa]

/-! ## Characterizations of the redeem route -/

theorem redeemRoute_notFound {now : Int} {u : User} {uid : Nat} {t rnd : String}
    (hrole : u.role = Role.citizen) :
    redeemRoute now u none uid t rnd = .error Err.rewardNotFound := by
  unfold redeemRoute
  rw [if_neg (not_not_intro hrole)]

theorem redeemRoute_notAvailable {now : Int} {u : User} {rw : Reward}
    {uid : Nat} {t rnd : String} (hrole : u.role = Role.citizen)
    (hav : rw.isAvailable now = false) :
    redeemRoute now u (some rw) uid t rnd = .error Err.rewardNotAvailable := by
  unfold redeemRoute
  rw [if_neg (not_not_intro hrole)]
  try simp only []
  rw [if_pos (by rw [hav]; exact Bool.false_ne_true)]

theorem redeemRoute_insufficient {now : Int} {u : User} {rw : Reward}
    {uid : Nat} {t rnd : String} (hrole : u.role = Role.citizen)
    (hav : rw.isAvailable now = true) (hpts : u.points < rw.pointsCost) :
    redeemRoute now u (some rw) uid t rnd = .error Err.insufficientPoints := by
  unfold redeemRoute
  rw [if_neg (not_not_intro hrole)]
  try simp only []
  rw [if_neg (not_not_intro hav)]
  rw [if_pos hpts]

theorem redeemRoute_success {now : Int} {u : User} {rw : Reward}
    {uid : Nat} {t rnd : String} (hrole : u.role = Role.citizen)
    (hav : rw.isAvailable now = true) (hpts : rw.pointsCost ≤ u.points) :
    redeemRoute now u (some rw) uid t rnd =
      .ok ({ u with points := u.points - rw.pointsCost },
           { rw with remainingQuantity := rw.remainingQuantity - 1,
                     totalRedeemed := rw.totalRedeemed + 1 },
           { userId := uid, pointsUsed := rw.pointsCost,
             generatedCode := rw.generateCouponCode t rnd,
             status := RedemptionStatus.active,
             expiresAt := rw.validUntil }) := by
  unfold redeemRoute
  rw [if_neg (not_not_intro hrole)]
  try simp only []
  rw [if_neg (not_not_intro hav)]
  rw [if_neg (not_lt.mpr hpts)]
  show Except.bind (u.deductPoints rw.pointsCost) _ = _
  unfold User.deductPoints
  rw [if_pos ⟨hrole, hpts⟩]
  show Except.bind (rw.redeem now uid t rnd) _ = _
  unfold Reward.redeem
  rw [if_pos hav]
  rfl

theorem redeemRoute_ok {now : Int} {u : User} {rwOpt : Option Reward}
    {uid : Nat} {t rnd : String} {u' : User} {rw' : Reward} {red : Redemption}
    (h : redeemRoute now u rwOpt uid t rnd = .ok (u', rw', red)) :
    ∃ rw, rwOpt = some rw ∧ u.role = Role.citizen ∧
      rw.isAvailable now = true ∧ rw.pointsCost ≤ u.points ∧
      u' = { u with points := u.points - rw.pointsCost } ∧
      rw' = { rw with remainingQuantity := rw.remainingQuantity - 1,
                      totalRedeemed := rw.totalRedeemed + 1 } ∧
      red = { userId := uid, pointsUsed := rw.pointsCost,
              generatedCode := rw.generateCouponCode t rnd,
              status := RedemptionStatus.active,
              expiresAt := rw.validUntil } := by
  unfold redeemRoute at h
  split at h
  · exact Except.noConfusion h
  next hrole =>
    have hrole' : u.role = Role.citizen := not_not.mp hrole
    split at h
    · exact Except.noConfusion h
    next rw =>
      split at h
      · exact Except.noConfusion h
      next hav =>
        have hav' : rw.isAvailable now = true := not_not.mp hav
        split at h
        · exact Except.noConfusion h
        next hpts =>
          have hpts' : rw.pointsCost ≤ u.points := not_lt.mp hpts
          rw [show (∀ (x : Except Err User) f, bind x f = Except.bind x f)
                from fun _ _ => rfl] at h
          cases hded : u.deductPoints rw.pointsCost with
          | error e => rw [hded] at h; exact Except.noConfusion h
          | ok u1 =>
            rw [hded] at h
            simp only [Except.bind] at h
            unfold User.deductPoints at hded
            rw [if_pos ⟨hrole', hpts'⟩] at hded
            obtain rfl := (Except.ok.inj hded)
            rw [show (∀ (x : Except Err (Reward × Redemption)) f,
                  bind x f = Except.bind x f) from fun _ _ => rfl] at h
            cases hrdm : rw.redeem now uid t rnd with
            | error e => rw [hrdm] at h; exact Except.noConfusion h
            | ok pr =>
              rw [hrdm] at h
              simp only [Except.bind] at h
              unfold Reward.redeem at hrdm
              rw [if_pos hav'] at hrdm
              obtain rfl := (Except.ok.inj hrdm)
              have h3 := Except.ok.inj h
              obtain ⟨h4, h5⟩ := Prod.mk.inj h3
              obtain ⟨h6, h7⟩ := Prod.mk.inj h5
              exact ⟨rw, rfl, hrole', hav', hpts', h4.symm, h6.symm, h7.symm⟩

/-! ## Ledger step lemmas -/

theorem applyLedgerOp_nonneg (u : User) (op : LedgerOp) (h0 : 0 ≤ u.points)
    (hop : addNonneg op = true) : 0 ≤ (applyLedgerOp u op).points := by
  cases op with
  | add a =>
    show 0 ≤ (userOrKeep u (u.addPoints a)).points
    have ha : (0 : Int) ≤ a := by
      simpa [addNonneg] using hop
    unfold User.addPoints
    split
    · exact add_nonneg h0 ha
    · exact h0
  | deduct a =>
    show 0 ≤ (userOrKeep u (u.deductPoints a)).points
    unfold User.deductPoints
    split
    next hcond => exact sub_nonneg.mpr hcond.2
    · exact h0
  | redeemCall now rw uid t rnd =>
    show (0 : Int) ≤ (match redeemRoute now u (some rw) uid t rnd with
              | .ok (u', _, _) => u'
              | .error _ => u).points
    cases hres : redeemRoute now u (some rw) uid t rnd with
    | error e => exact h0
    | ok p =>
      obtain ⟨u', rw', red⟩ := p
      obtain ⟨rw0, hsome, hrole, hav, hpts, hu', hrw', hred⟩ := redeemRoute_ok hres
      obtain rfl := Option.some.inj hsome
      rw [hu']
      exact sub_nonneg.mpr hpts

theorem runLedger_nonneg (u : User) (ops : List LedgerOp) (h0 : 0 ≤ u.points)
    (hall : ops.all addNonneg = true) : 0 ≤ (runLedger u ops).points := by
  induction ops generalizing u with
  | nil => exact h0
  | cons op rest ih =>
    rw [List.all_cons] at hall
    obtain ⟨h1, h2⟩ := Bool.and_eq_true_iff.mp hall
    exact ih (applyLedgerOp u op) (applyLedgerOp_nonneg u op h0 h1) h2

/-- What one redemption attempt does: a success consumes exactly one unit
of stock and appends exactly one redemption; a failure changes nothing. -/
theorem redeemAttempt_step (st : Reward × List Redemption) (a : AttemptArgs) :
    (∃ u' rw' red,
       redeemRoute a.now a.user (some st.1) a.userId a.timestampPart a.randomPart
         = .ok (u', rw', red) ∧
       redeemAttempt st a = (rw', st.2 ++ [red]) ∧
       rw'.remainingQuantity = st.1.remainingQuantity - 1 ∧
       rw'.totalQuantity = st.1.totalQuantity ∧
       0 < st.1.remainingQuantity) ∨
    (∃ e,
       redeemRoute a.now a.user (some st.1) a.userId a.timestampPart a.randomPart
         = .error e ∧
       redeemAttempt st a = st) := by
  cases hres : redeemRoute a.now a.user (some st.1) a.userId a.timestampPart
      a.randomPart with
  | error e =>
    right
    exact ⟨e, rfl, by unfold redeemAttempt; rw [hres]⟩
  | ok p =>
    obtain ⟨u', rw', red⟩ := p
    left
    obtain ⟨rw0, hsome, hrole, hav, hpts, hu', hrw', hred⟩ := redeemRoute_ok hres
    obtain rfl := Option.some.inj hsome
    have hpos : 0 < st.1.remainingQuantity := by
      unfold Reward.isAvailable at hav
      simp only [Bool.and_eq_true, decide_eq_true_eq] at hav
      exact hav.1.1.2
    refine ⟨u', rw', red, rfl, by unfold redeemAttempt; rw [hres], ?_, ?_, hpos⟩
    · rw [hrw']
    · rw [hrw']

theorem runAttempts_inv (st : Reward × List Redemption)
    (attempts : List AttemptArgs)
    (hinv : st.1.totalQuantity - st.1.remainingQuantity = (st.2.length : Int))
    (hnn : 0 ≤ st.1.remainingQuantity) :
    (runAttempts st attempts).1.totalQuantity -
        (runAttempts st attempts).1.remainingQuantity =
      ((runAttempts st attempts).2.length : Int) ∧
    0 ≤ (runAttempts st attempts).1.remainingQuantity ∧
    (runAttempts st attempts).1.totalQuantity = st.1.totalQuantity := by
  induction attempts generalizing st with
  | nil => exact ⟨hinv, hnn, rfl⟩
  | cons a rest ih =>
    have hstep : runAttempts st (a :: rest) = runAttempts (redeemAttempt st a) rest := rfl
    rw [hstep]
    rcases redeemAttempt_step st a with
      ⟨u', rw', red, hres, heq, hrq, htq, hpos⟩ | ⟨e, hres, heq⟩
    · have hinv' : (redeemAttempt st a).1.totalQuantity -
          (redeemAttempt st a).1.remainingQuantity =
          ((redeemAttempt st a).2.length : Int) := by
        rw [heq]
        show rw'.totalQuantity - rw'.remainingQuantity = ((st.2 ++ [red]).length : Int)
        rw [hrq, htq, List.length_append, List.length_singleton]
        push_cast
        omega
      have hnn' : 0 ≤ (redeemAttempt st a).1.remainingQuantity := by
        rw [heq]
        show 0 ≤ rw'.remainingQuantity
        rw [hrq]
        omega
      obtain ⟨g1, g2, g3⟩ := ih (redeemAttempt st a) hinv' hnn'
      refine ⟨g1, g2, ?_⟩
      rw [g3, heq]
      exact htq
    · rw [heq]
      exact ih st hinv hnn

/-! ## Reporting id helpers -/

theorem padStart_length (s : String) (n : Nat) (c : Char) :
    (padStart s n c).length = max n s.length := by
  unfold padStart
  split
  next h => rw [Nat.max_eq_right h]
  next h =>
    rw [String.length_append]
    have h' : s.length ≤ n := le_of_not_le h
    have hmk : (String.mk (List.replicate (n - s.length) c)).length = n - s.length := by
      rw [String.mk_length, List.length_replicate]
    rw [hmk, Nat.max_eq_left h']
    omega

/-! ## Claim theorems -/

/-- C4: in every state reachable by a sequence of lifecycle requests from a
fresh world, the statuses recorded in the report's `statusHistory` walk the
transition graph `submitted → verified → assigned → in_progress →
completed`, with `submitted → rejected` the only alternate branch, edge by
edge starting from the implicit initial status `submitted` — so no
transition skips an intermediate state and the status field equals the last
recorded status; moreover once a report is `completed` or `rejected`, no
further request changes its status or its history. -/
theorem statusHistory_valid_path :
    (∀ (users : List (Nat × User)) (ops : List Op) (r : Report),
       (runOps ⟨users, none⟩ ops).report = some r →
       validChain Status.submitted (historyStatuses r) = true ∧
       r.status = lastStatus Status.submitted (historyStatuses r)) ∧
    (∀ (s : LState) (r : Report) (op : Op), s.report = some r →
       r.status = Status.completed ∨ r.status = Status.rejected →
       ∃ r', (applyOp s op).report = some r' ∧ r'.status = r.status ∧
         r'.statusHistory = r.statusHistory) := by
  constructor
  · intro users ops r hrep
    obtain ⟨h1, h2, _⟩ := runOps_inv ops (inv_start users) r hrep
    exact ⟨h1, h2⟩
  · intro s r op hrep hterm
    exact terminal_preserved hrep hterm op

/-- Witness for C4 on the concrete end-to-end trace and a concrete
terminal-state request. -/
theorem statusHistory_valid_path_witness :
    (validChain Status.submitted (historyStatuses demoAwardedReport) = true ∧
     demoAwardedReport.status =
       lastStatus Status.submitted (historyStatuses demoAwardedReport)) ∧
    (∃ r', (applyOp demoAwardState (Op.start 3)).report = some r' ∧
       r'.status = demoCompletedReport.status ∧
       r'.statusHistory = demoCompletedReport.statusHistory) :=
  ⟨statusHistory_valid_path.1 demoStart.users demoTrace demoAwardedReport
     (by decide),
   statusHistory_valid_path.2 demoAwardState demoCompletedReport (Op.start 3)
     rfl (Or.inl rfl)⟩

/-- C10: the award-points handler accepts only integer point values between
1 and 1000: an admin request whose body value is missing/non-integer
(`pts = none`) or out of range fails with the validation error in every
state — the report is never consulted and nothing changes — and
consequently every reachable report has `pointsAwarded` equal to `0` or in
`1..1000`. -/
theorem awardPoints_validation :
    (∀ (s : LState) (a : Nat) (u : User) (pts : Option Int),
       s.findUser a = some u → u.role = Role.admin →
       (pts = none ∨ ∃ p, pts = some p ∧ (p < 1 ∨ 1000 < p)) →
       awardPoints a pts s = .error Err.validationFailed) ∧
    (∀ (users : List (Nat × User)) (ops : List Op) (r : Report),
       (runOps ⟨users, none⟩ ops).report = some r →
       r.pointsAwarded = 0 ∨ (1 ≤ r.pointsAwarded ∧ r.pointsAwarded ≤ 1000)) := by
  constructor
  · exact award_validation_err
  · intro users ops r hrep
    exact (runOps_inv ops (inv_start users) r hrep).2.2

/-- Witness for C10: an admin request with 2000 points fails validation in
a world with no report at all, and the pointsAwarded of the end-to-end
trace's report is in range. -/
theorem awardPoints_validation_witness :
    awardPoints 2 (some 2000) demoStart = .error Err.validationFailed ∧
    (demoAwardedReport.pointsAwarded = 0 ∨
     (1 ≤ demoAwardedReport.pointsAwarded ∧ demoAwardedReport.pointsAwarded ≤ 1000)) :=
  ⟨awardPoints_validation.1 demoStart 2 demoAdmin (some 2000) rfl rfl
     (Or.inr ⟨2000, rfl, Or.inr (by decide)⟩),
   awardPoints_validation.2 demoStart.users demoTrace demoAwardedReport (by decide)⟩

/-- C1: for a completed report with no points awarded yet, an admin's first
`award-points` call with a valid value `p` succeeds, sets `pointsAwarded`
to `p` and raises the citizen's balance by exactly `p`; afterwards the
whole state is a fixed point of every request, and in particular any
further valid admin `award-points` call fails with
`POINTS_ALREADY_AWARDED`, so the balance rises at most once per report. -/
theorem awardPoints_at_most_once {s : LState} {a : Nat} {u : User} {p : Int}
    {r : Report} {cit : User}
    (hu : s.findUser a = some u) (hrole : u.role = Role.admin)
    (hp1 : 1 ≤ p) (hp2 : p ≤ 1000)
    (hr : s.report = some r) (hst : r.status = Status.completed)
    (hpa : r.pointsAwarded = 0)
    (hcit : s.findUser r.citizen = some cit) (hcr : cit.role = Role.citizen) :
    ∃ s', awardPoints a (some p) s = .ok s' ∧
      s'.report = some { r with pointsAwarded := p } ∧
      s'.findUser r.citizen =
        some { cit with points := cit.points + p,
                        completedReports := cit.completedReports + 1 } ∧
      (∀ ops : List Op, runOps s' ops = s') ∧
      (∀ (a2 : Nat) (u2 : User) (q : Int), s'.findUser a2 = some u2 →
         u2.role = Role.admin → 1 ≤ q → q ≤ 1000 →
         awardPoints a2 (some q) s' = .error Err.pointsAlreadyAwarded) := by
  refine ⟨_, award_success hu hrole hp1 hp2 hr hst hpa hcit hcr, rfl, ?_, ?_, ?_⟩
  · exact findUser_setUser_self hcit _
  · intro ops
    exact frozen_runOps (r := { r with pointsAwarded := p }) rfl hst
      (lt_of_lt_of_le one_pos hp1) ops
  · intro a2 u2 q hu2 hrole2 hq1 hq2
    exact award_repeat_err hu2 hrole2 hq1 hq2
      (r := { r with pointsAwarded := p }) rfl hst (lt_of_lt_of_le one_pos hp1)

/-- Witness for C1 at the concrete completed report of the scenario. -/
theorem awardPoints_at_most_once_witness :
    ∃ s', awardPoints 2 (some 50) demoAwardState = .ok s' ∧
      s'.report = some { demoCompletedReport with pointsAwarded := 50 } ∧
      s'.findUser demoCompletedReport.citizen =
        some { demoCitizen with points := demoCitizen.points + 50,
                                completedReports := demoCitizen.completedReports + 1 } ∧
      (∀ ops : List Op, runOps s' ops = s') ∧
      (∀ (a2 : Nat) (u2 : User) (q : Int), s'.findUser a2 = some u2 →
         u2.role = Role.admin → 1 ≤ q → q ≤ 1000 →
         awardPoints a2 (some q) s' = .error Err.pointsAlreadyAwarded) :=
  awardPoints_at_most_once
    (rfl : demoAwardState.findUser 2 = some demoAdmin) rfl
    (by decide) (by decide) rfl rfl rfl
    (rfl : demoAwardState.findUser demoCompletedReport.citizen = some demoCitizen)
    rfl

/-- C5 counterexample: running the exact end-to-end scenario leaves 4
entries in `statusHistory`, not the claimed 5 — report creation never calls
`changeStatus`, so no `submitted` entry is ever recorded. -/
theorem end_to_end_refuted :
    (runOps demoStart demoTrace).report = some demoAwardedReport ∧
    demoAwardedReport.statusHistory.length = 4 ∧
    historyStatuses demoAwardedReport ≠
      [Status.submitted, Status.verified, Status.assigned,
       Status.in_progress, Status.completed] :=
  ⟨by decide, by decide, by decide⟩

/-- C5 amended: the end-to-end scenario submit → verify(approve) →
assign(3) → start(3) → complete(3, afterImage, "done") → awardPoints(50)
ends with status `completed`, `pointsAwarded = 50`, the citizen's balance
increased by exactly 50, and `statusHistory` holding exactly 4 entries in
the order verified, assigned, in_progress, completed (creation records no
`submitted` entry). -/
theorem end_to_end_amended :
    (runOps demoStart demoTrace).report = some demoAwardedReport ∧
    demoAwardedReport.status = Status.completed ∧
    demoAwardedReport.pointsAwarded = 50 ∧
    (runOps demoStart demoTrace).findUser 1 =
      some { demoCitizen with points := demoCitizen.points + 50,
                              totalReports := demoCitizen.totalReports + 1,
                              completedReports := demoCitizen.completedReports + 1 } ∧
    demoAwardedReport.statusHistory.length = 4 ∧
    historyStatuses demoAwardedReport =
      [Status.verified, Status.assigned, Status.in_progress, Status.completed] :=
  ⟨by decide, rfl, rfl, by decide, by decide, by decide⟩

/-- C7 counterexample: `addPoints` on a resolved user whose role is not
`citizen` (here a collector) throws, refuting "never fails … regardless of
the user's role"; the amount used is positive. -/
theorem addPoints_role_refuted :
    User.addPoints demoCollector 5 = .error Err.onlyCitizensEarnPoints ∧
    (0 : Int) < 5 :=
  ⟨rfl, by decide⟩

/-- C7 amended: for every resolved user whose role is `citizen` and every
amount > 0, `addPoints` succeeds and increments the balance by exactly that
amount. -/
theorem addPoints_citizen_succeeds (u : User) (amt : Int)
    (hrole : u.role = Role.citizen) (_hamt : 0 < amt) :
    u.addPoints amt = .ok { u with points := u.points + amt } := by
  unfold User.addPoints
  rw [if_pos hrole]

/-- Witness for the amended C7 at a concrete citizen. -/
theorem addPoints_citizen_succeeds_witness :
    User.addPoints demoCitizen 5 =
      .ok { demoCitizen with points := demoCitizen.points + 5 } :=
  addPoints_citizen_succeeds demoCitizen 5 rfl (by decide)

/-- C2 counterexample: `addPoints` never checks the sign of its argument,
so one `addPoints(−8)` call on a citizen holding 7 points drives the
balance to −1 — the claim fails for "arbitrary argument values". -/
theorem points_nonneg_refuted :
    (0 : Int) ≤ demoCitizen.points ∧
    (runLedger demoCitizen [LedgerOp.add (-8)]).points < 0 := by
  exact ⟨by decide, by decide⟩

/-- C2 amended: for every user with a non-negative balance and every call
sequence in which each `addPoints` amount is non-negative (which holds for
every caller in the repository: award-points validates 1..1000), the
balance stays non-negative; and any `deductPoints` whose amount exceeds
the balance throws `InsufficientPoints` and leaves the balance unchanged. -/
theorem points_nonneg_amended :
    (∀ (u : User) (ops : List LedgerOp), 0 ≤ u.points →
       ops.all addNonneg = true → 0 ≤ (runLedger u ops).points) ∧
    (∀ (u : User) (amt : Int), u.points < amt →
       u.deductPoints amt = .error Err.insufficientPoints ∧
       applyLedgerOp u (LedgerOp.deduct amt) = u) := by
  constructor
  · exact runLedger_nonneg
  · intro u amt hlt
    have herr : u.deductPoints amt = .error Err.insufficientPoints := by
      unfold User.deductPoints
      rw [if_neg]
      rintro ⟨_, hge⟩
      exact absurd hge (not_le.mpr hlt)
    refine ⟨herr, ?_⟩
    show userOrKeep u (u.deductPoints amt) = u
    rw [herr]
    rfl

/-- Witness for the amended C2 on a concrete call sequence containing a
rejected over-large deduction. -/
theorem points_nonneg_amended_witness :
    0 ≤ (runLedger demoCitizen
          [LedgerOp.add 3, LedgerOp.deduct 100, LedgerOp.deduct 4]).points ∧
    (User.deductPoints demoCitizen 100 = .error Err.insufficientPoints ∧
     applyLedgerOp demoCitizen (LedgerOp.deduct 100) = demoCitizen) :=
  ⟨points_nonneg_amended.1 demoCitizen
     [LedgerOp.add 3, LedgerOp.deduct 100, LedgerOp.deduct 4]
     (by decide) (by decide),
   points_nonneg_amended.2 demoCitizen 100 (by decide)⟩

/-- C3: starting from any reward state satisfying
`totalQuantity − remainingQuantity = #Redemptions` with non-negative stock
(in particular a fresh reward with full stock and no redemptions), every
finite sequence of redemption attempts preserves the equation and keeps
`remainingQuantity ≥ 0`; moreover each attempt either succeeds, decrementing
stock by exactly 1 and appending exactly one `Redemption`, or fails,
creating nothing and changing nothing. -/
theorem stock_conservation :
    (∀ (rw : Reward) (reds : List Redemption) (attempts : List AttemptArgs),
       rw.totalQuantity - rw.remainingQuantity = (reds.length : Int) →
       0 ≤ rw.remainingQuantity →
       (runAttempts (rw, reds) attempts).1.totalQuantity -
           (runAttempts (rw, reds) attempts).1.remainingQuantity =
         ((runAttempts (rw, reds) attempts).2.length : Int) ∧
       0 ≤ (runAttempts (rw, reds) attempts).1.remainingQuantity ∧
       (runAttempts (rw, reds) attempts).1.totalQuantity = rw.totalQuantity) ∧
    (∀ (st : Reward × List Redemption) (a : AttemptArgs),
       (∃ u' rw' red,
          redeemRoute a.now a.user (some st.1) a.userId a.timestampPart
              a.randomPart = .ok (u', rw', red) ∧
          redeemAttempt st a = (rw', st.2 ++ [red]) ∧
          rw'.remainingQuantity = st.1.remainingQuantity - 1) ∨
       (∃ e,
          redeemRoute a.now a.user (some st.1) a.userId a.timestampPart
              a.randomPart = .error e ∧
          redeemAttempt st a = st)) := by
  constructor
  · intro rw reds attempts hinv hnn
    exact runAttempts_inv (rw, reds) attempts hinv hnn
  · intro st a
    rcases redeemAttempt_step st a with
      ⟨u', rw', red, hres, heq, hrq, _, _⟩ | ⟨e, hres, heq⟩
    · exact Or.inl ⟨u', rw', red, hres, heq, hrq⟩
    · exact Or.inr ⟨e, hres, heq⟩

/-- Witness for C3: a fresh ten-unit reward, two concrete attempts (one by
a citizen with enough points, one by a collector which fails). -/
theorem stock_conservation_witness :
    ((runAttempts (demoReward, []) [⟨10, demoCitizen, 1, "123456", "AB12"⟩,
        ⟨10, demoCollector, 3, "123457", "CD34"⟩]).1.totalQuantity -
       (runAttempts (demoReward, []) [⟨10, demoCitizen, 1, "123456", "AB12"⟩,
          ⟨10, demoCollector, 3, "123457", "CD34"⟩]).1.remainingQuantity =
       ((runAttempts (demoReward, []) [⟨10, demoCitizen, 1, "123456", "AB12"⟩,
           ⟨10, demoCollector, 3, "123457", "CD34"⟩]).2.length : Int) ∧
     0 ≤ (runAttempts (demoReward, []) [⟨10, demoCitizen, 1, "123456", "AB12"⟩,
           ⟨10, demoCollector, 3, "123457", "CD34"⟩]).1.remainingQuantity ∧
     (runAttempts (demoReward, []) [⟨10, demoCitizen, 1, "123456", "AB12"⟩,
        ⟨10, demoCollector, 3, "123457", "CD34"⟩]).1.totalQuantity =
       demoReward.totalQuantity) :=
  stock_conservation.1 demoReward [] _ (by decide) (by decide)

/-- C6: with a citizen caller, the redeem route fails `RewardNotFound` on a
missing reward, `RewardNotAvailable` on an unavailable one and
`InsufficientPoints` on a short balance — each failure produces no new
state — and on success it simultaneously deducts exactly `pointsCost` from
the balance, decrements `remainingQuantity` by exactly 1, generates a
coupon code and creates a `Redemption` with `status = active`,
`pointsUsed = pointsCost` and `expiresAt = validUntil`. -/
theorem redeem_atomic (now : Int) (u : User) (uid : Nat) (t rnd : String)
    (hrole : u.role = Role.citizen) :
    (redeemRoute now u none uid t rnd = .error Err.rewardNotFound) ∧
    (∀ rw : Reward, rw.isAvailable now = false →
       redeemRoute now u (some rw) uid t rnd = .error Err.rewardNotAvailable) ∧
    (∀ rw : Reward, rw.isAvailable now = true → u.points < rw.pointsCost →
       redeemRoute now u (some rw) uid t rnd = .error Err.insufficientPoints) ∧
    (∀ rw : Reward, rw.isAvailable now = true → rw.pointsCost ≤ u.points →
       redeemRoute now u (some rw) uid t rnd =
         .ok ({ u with points := u.points - rw.pointsCost },
              { rw with remainingQuantity := rw.remainingQuantity - 1,
                        totalRedeemed := rw.totalRedeemed + 1 },
              { userId := uid, pointsUsed := rw.pointsCost,
                generatedCode := rw.generateCouponCode t rnd,
                status := RedemptionStatus.active,
                expiresAt := rw.validUntil })) :=
  ⟨redeemRoute_notFound hrole,
   fun _ hav => redeemRoute_notAvailable hrole hav,
   fun _ hav hpts => redeemRoute_insufficient hrole hav hpts,
   fun _ hav hpts => redeemRoute_success hrole hav hpts⟩

/-- Witness for C6 at a concrete citizen, instant and reward. -/
theorem redeem_atomic_witness :
    (redeemRoute 10 demoCitizen none 1 "123456" "AB12" =
       .error Err.rewardNotFound) ∧
    (∀ rw : Reward, rw.isAvailable 10 = false →
       redeemRoute 10 demoCitizen (some rw) 1 "123456" "AB12" =
         .error Err.rewardNotAvailable) ∧
    (∀ rw : Reward, rw.isAvailable 10 = true →
       demoCitizen.points < rw.pointsCost →
       redeemRoute 10 demoCitizen (some rw) 1 "123456" "AB12" =
         .error Err.insufficientPoints) ∧
    (∀ rw : Reward, rw.isAvailable 10 = true →
       rw.pointsCost ≤ demoCitizen.points →
       redeemRoute 10 demoCitizen (some rw) 1 "123456" "AB12" =
         .ok ({ demoCitizen with points := demoCitizen.points - rw.pointsCost },
              { rw with remainingQuantity := rw.remainingQuantity - 1,
                        totalRedeemed := rw.totalRedeemed + 1 },
              { userId := 1, pointsUsed := rw.pointsCost,
                generatedCode := rw.generateCouponCode "123456" "AB12",
                status := RedemptionStatus.active,
                expiresAt := rw.validUntil })) :=
  redeem_atomic 10 demoCitizen 1 "123456" "AB12" rfl

/-- C9 counterexample: `padStart(6, '0')` pads to *at least* six digits, so
the millionth report gets the 9-character id `WR1000000`; "every reportId
is 8 characters long" fails. -/
theorem reportId_length_refuted :
    generateReportId 999999 = "WR1000000" ∧
    (generateReportId 999999).length ≠ 8 :=
  ⟨rfl, by decide⟩

/-- C9 amended: a new report without a reportId gets
`"WR" ++ String(count+1).padStart(6,'0')`; the decimal digits are padded to
*at least* six characters — the id length is `2 + max 6 digits(count+1)` —
so the id is exactly 8 characters whenever `count + 1 < 10^6` (e.g. the
first report is `WR000001`), and longer afterwards. -/
theorem reportId_format (count : Nat) :
    assignReportId true none count = some (generateReportId count) ∧
    (generateReportId count).length =
      2 + max 6 (Nat.repr (count + 1)).length ∧
    (count + 1 < 1000000 → (generateReportId count).length = 8) := by
  refine ⟨rfl, ?_, ?_⟩
  · show ("WR" ++ padStart (Nat.repr (count + 1)) 6 '0').length = _
    rw [String.length_append, padStart_length]
    rfl
  · intro hlt
    have hle : (Nat.repr (count + 1)).length ≤ 6 :=
      Nat.repr_length (count + 1) 6 (by norm_num) (by simpa using hlt)
    show ("WR" ++ padStart (Nat.repr (count + 1)) 6 '0').length = 8
    rw [String.length_append, padStart_length, Nat.max_eq_left hle]
    rfl

/-- Witness for the amended C9 at the first report. -/
theorem reportId_format_witness :
    (generateReportId 0).length = 8 ∧ generateReportId 0 = "WR000001" :=
  ⟨(reportId_format 0).2.2 (by decide), rfl⟩

/-- C8 counterexample: `findNearby(0, 0, 111)` selects the report at
(1, 0) — it lies inside the query's coordinate box — although its haversine
distance from the query point is `6371·π/180 ≈ 111.19 km > 111 km`, so the
returned set is not the haversine disc the claim describes. -/
theorem findNearby_haversine_refuted :
    memFindNearby 0 0 111 1 0 ∧ 111 < calculateDistance 0 0 1 0 := by
  have hpi := Real.pi_pos
  have hx2 : Real.pi / 360 < Real.pi / 2 := by linarith
  have hsin_pos : 0 < Real.sin (Real.pi / 360) :=
    Real.sin_pos_of_pos_of_lt_pi (by linarith) (by linarith)
  have hcos_pos : 0 < Real.cos (Real.pi / 360) :=
    Real.cos_pos_of_mem_Ioo ⟨by linarith, hx2⟩
  constructor
  · unfold memFindNearby
    norm_num [Real.cos_zero]
  · have hA : haversineA 0 0 1 0 =
        Real.sin (Real.pi / 360) * Real.sin (Real.pi / 360) := by
      unfold haversineA
      rw [show ((1 : ℝ) - 0) * Real.pi / 180 / 2 = Real.pi / 360 by ring]
      rw [show ((0 : ℝ) - 0) * Real.pi / 180 / 2 = 0 by ring]
      rw [Real.sin_zero]
      ring
    have hsqrtA : Real.sqrt (haversineA 0 0 1 0) = Real.sin (Real.pi / 360) := by
      rw [hA]
      exact Real.sqrt_mul_self hsin_pos.le
    have h1A : 1 - haversineA 0 0 1 0 =
        Real.cos (Real.pi / 360) * Real.cos (Real.pi / 360) := by
      rw [hA]
      have hpyth := Real.sin_sq_add_cos_sq (Real.pi / 360)
      nlinarith [hpyth]
    have hsqrt1A : Real.sqrt (1 - haversineA 0 0 1 0) =
        Real.cos (Real.pi / 360) := by
      rw [h1A]
      exact Real.sqrt_mul_self hcos_pos.le
    have hatan : atan2 (Real.sin (Real.pi / 360)) (Real.cos (Real.pi / 360)) =
        Real.pi / 360 := by
      unfold atan2
      rw [if_pos hcos_pos, ← Real.tan_eq_sin_div_cos]
      exact Real.arctan_tan (by linarith) hx2
    unfold calculateDistance
    rw [hsqrtA, hsqrt1A, hatan]
    have hpi314 := Real.pi_gt_d2
    linarith

/-- C8 amended: `findNearby(lat, lng, radiusKm)` returns exactly the
reports inside the axis-aligned coordinate box centred on the query point,
with half-width `radiusKm/111` degrees of latitude and
`radiusKm/(111·cos(lat·π/180))` degrees of longitude — an approximation of
the haversine disc that can both include reports farther than `radiusKm`
and is not computed from `calculateDistance` at all. -/
theorem findNearby_box_characterization (lat lng radiusKm rlat rlng : ℝ) :
    memFindNearby lat lng radiusKm rlat rlng ↔
      inBoundingBox lat lng radiusKm rlat rlng := by
  unfold memFindNearby inBoundingBox
  rw [abs_le, abs_le]
  constructor
  · rintro ⟨⟨h1, h2⟩, h3, h4⟩
    refine ⟨⟨?_, ?_⟩, ?_, ?_⟩ <;> linarith
  · rintro ⟨⟨h1, h2⟩, h3, h4⟩
    refine ⟨⟨?_, ?_⟩, ?_, ?_⟩ <;> linarith

end WasteMgmt
